import Mathlib

/-!
Verification development for the kernel-token program
(src/programs/kernel-token/src/lib.rs).

The Rust source is an Anchor/Solana program.  We embed it shallowly:

* machine integers become `Nat` with explicit bounds: every Rust
  `checked_add` / `checked_sub` / `checked_mul` on `u16`/`u64`/`u128`
  becomes an `Option Nat` returning `none` exactly when the Rust call
  would return `None` (and the source's `.unwrap()` would abort the
  transaction);
* account state structs (`KernelConfig`, `UserStake`, `LPVault`, ...)
  become Lean structures; `Pubkey` identities become `Nat`, `i64`
  timestamps become `Int`; the storage-plumbing fields (`bump`s and
  token-account addresses) that never enter the ledger logic are omitted;
* every instruction handler becomes a total function returning
  `Except Err newState`; the Anchor account `constraint`s of the
  corresponding `#[derive(Accounts)]` struct are checked first, exactly
  as the runtime validates accounts before the handler body runs;
* the external token CPI (`transfer_checked` / `burn`) is a Boolean
  parameter `transferOk`: the collaborating Transfer Service either
  succeeds or fails, and a failure at the call site aborts the
  instruction at exactly the program point where the source issues the
  CPI.
-/

/-- Precision for accumulated_per_share calculations, `PRECISION = 1e12`
in the source. -/
def PRECISION : Nat := 1000000000000

/-- Timelock duration for fee updates, `24 * 60 * 60` seconds in the
source. -/
def TIMELOCK_DURATION : Int := 24 * 60 * 60

/-- Checked u16 addition: `a.checked_add(b)` on `u16` values. -/
def chAdd16 (a b : Nat) : Option Nat :=
  if a + b < 2 ^ 16 then some (a + b) else none

/-- Checked u64 addition: `a.checked_add(b)` on `u64` values. -/
def chAdd64 (a b : Nat) : Option Nat :=
  if a + b < 2 ^ 64 then some (a + b) else none

/-- Checked u64 subtraction: `a.checked_sub(b)` on `u64` values. -/
def chSub64 (a b : Nat) : Option Nat :=
  if b ≤ a then some (a - b) else none

/-- Checked u64 multiplication: `a.checked_mul(b)` on `u64` values. -/
def chMul64 (a b : Nat) : Option Nat :=
  if a * b < 2 ^ 64 then some (a * b) else none

/-- Checked u128 addition: `a.checked_add(b)` on `u128` values. -/
def chAdd128 (a b : Nat) : Option Nat :=
  if a + b < 2 ^ 128 then some (a + b) else none

/-- Checked u128 multiplication: `a.checked_mul(b)` on `u128` values. -/
def chMul128 (a b : Nat) : Option Nat :=
  if a * b < 2 ^ 128 then some (a * b) else none

/-- The error enum `KernelError` of the source. -/
inductive KernelError where
  | InvalidFeeConfig
  | ZeroAmount
  | InsufficientStake
  | NothingToClaim
  | NotOwner
  | NotAuthority
  | TooManyRecipients
  | ProgramPaused
  | TimelockNotExpired
  | ProposalAlreadyExecuted
  | ProposalCancelled
  | InsufficientLPFunds
  | AuthorityTransferAlreadyPending
  | AuthorityTransferAlreadyExecuted
  | AuthorityTransferCancelled
  deriving DecidableEq, Repr

/-- Ways an instruction can abort: a program `require!` error from
`KernelError`, a failed Transfer Service CPI (the `?` on
`transfer_checked` / `burn`), or an aborted `.unwrap()` on checked
arithmetic. -/
inductive Err where
  | kernel (e : KernelError)
  | transferFailed
  | overflow
  deriving DecidableEq, Repr

/-- True exactly when an instruction run ended in `Ok`. -/
def exOk {α : Type} : Except Err α → Bool
  | .ok _ => true
  | .error _ => false

/-- Modelled from the spec: the host runtime commits account writes only
when the instruction returns `Ok`; on any error the whole transaction is
rolled back and the stored state is unchanged (spec sections 5 and 7:
"if the transfer fails, no ledger state changes").  The commit mechanism
itself lives in the Solana runtime, not in src/. -/
def persist {α : Type} (old : α) : Except Err α → α
  | .ok a => a
  | .error _ => old

/-- The `KernelConfig` account (bump fields and vault addresses other
than the mint are omitted as storage plumbing). -/
structure KernelConfig where
  authority : Nat
  token_mint : Nat
  reflection_share_bps : Nat
  lp_share_bps : Nat
  burn_share_bps : Nat
  total_staked : Nat
  total_reflections_distributed : Nat
  pending_reflections : Nat
  accumulated_per_share : Nat
  is_paused : Bool
  deriving DecidableEq, Repr

/-- The `UserStake` account. -/
structure UserStake where
  owner : Nat
  staked_amount : Nat
  stake_time : Int
  pending_rewards : Nat
  total_claimed : Nat
  reward_debt : Nat
  deriving DecidableEq, Repr

/-- The `BurnRecord` account. -/
structure BurnRecord where
  total_burned : Nat
  burn_count : Nat
  last_burn_time : Int
  deriving DecidableEq, Repr

/-- The `AirdropState` account. -/
structure AirdropState where
  total_airdropped : Nat
  recipient_count : Nat
  deriving DecidableEq, Repr

/-- The `FeeProposal` account. -/
structure FeeProposal where
  proposer : Nat
  reflection_share_bps : Nat
  lp_share_bps : Nat
  burn_share_bps : Nat
  proposed_at : Int
  executed : Bool
  cancelled : Bool
  deriving DecidableEq, Repr

/-- The `PendingAuthorityTransfer` account. -/
structure PendingAuthorityTransfer where
  proposer : Nat
  new_authority : Nat
  proposed_at : Int
  executed : Bool
  cancelled : Bool
  deriving DecidableEq, Repr

/-- The `LPVault` account. -/
structure LPVault where
  authority : Nat
  token_mint : Nat
  total_allocated : Nat
  total_deployed : Nat
  pending_deployment : Nat
  last_deployment_time : Int
  deriving DecidableEq, Repr

/-- The `LPDeployment` account. -/
structure LPDeployment where
  pool_address : Nat
  kernel_amount : Nat
  lp_tokens_received : Nat
  deployed_at : Int
  withdrawn : Bool
  deriving DecidableEq, Repr

/-- Helper `calculate_pending_rewards` of the source: the u128 product
`user_staked * accumulated_per_share` (checked, abort on overflow),
divided by `PRECISION`, minus `reward_debt` saturating at zero, then
cast `as u64`, i.e. truncated modulo `2^64`. -/
def calculate_pending_rewards (user_staked accumulated_per_share reward_debt : Nat) :
    Option Nat :=
  if user_staked = 0 then some 0
  else
    match chMul128 user_staked accumulated_per_share with
    | none => none
    | some prod => some ((prod / PRECISION - reward_debt) % 2 ^ 64)

/-- Helper `calculate_reward_debt` of the source: checked u128 product
divided by `PRECISION`, kept as u128 (no truncation). -/
def calculate_reward_debt (user_staked accumulated_per_share : Nat) : Option Nat :=
  match chMul128 user_staked accumulated_per_share with
  | none => none
  | some prod => some (prod / PRECISION)

/-- Fee-sum validation shared by `initialize`, `propose_fee_update` and
`update_fees`: the source tests
`reflection_share_bps + lp_share_bps + burn_share_bps == 500` with plain
u16 `+`.  Modelled from the spec: the build profile (workspace
Cargo.toml) is not under src/, and spec section 7 fixes the overflow
semantics — "arithmetic overflow on additive accumulation is a fatal,
non-recoverable condition (the operation must abort)" — so the u16
additions are embedded as checked additions that abort on overflow. -/
def checkFeeConfig (reflection_share_bps lp_share_bps burn_share_bps : Nat) :
    Except Err Unit :=
  match chAdd16 reflection_share_bps lp_share_bps with
  | none => .error .overflow
  | some s =>
    match chAdd16 s burn_share_bps with
    | none => .error .overflow
    | some t =>
      if t = 500 then .ok () else .error (.kernel .InvalidFeeConfig)

/-- Instruction `initialize` of the source (named `init_config` here
because the identifier `initialize` is reserved in Lean): validates the
fee triple and creates the `KernelConfig` with zeroed counters. -/
def init_config (authority token_mint reflection_share_bps lp_share_bps
    burn_share_bps : Nat) : Except Err KernelConfig :=
  match checkFeeConfig reflection_share_bps lp_share_bps burn_share_bps with
  | .error e => .error e
  | .ok _ =>
    .ok { authority := authority
          token_mint := token_mint
          reflection_share_bps := reflection_share_bps
          lp_share_bps := lp_share_bps
          burn_share_bps := burn_share_bps
          total_staked := 0
          total_reflections_distributed := 0
          pending_reflections := 0
          accumulated_per_share := 0
          is_paused := false }

/-- Instruction `stake`: `owner` is the signer (the `Stake` accounts
struct has no authority constraint; `init_if_needed` lets any signer
create their own position and sets `owner`).  `transferOk` is the
outcome of the user-to-vault `transfer_checked` CPI. -/
def stake (cfg : KernelConfig) (user_stake : UserStake) (owner : Nat)
    (now : Int) (amount : Nat) (transferOk : Bool) :
    Except Err (KernelConfig × UserStake) :=
  if amount = 0 then .error (.kernel .ZeroAmount)
  else if cfg.is_paused = true then .error (.kernel .ProgramPaused)
  else
    match (if 0 < user_stake.staked_amount ∧ 0 < cfg.accumulated_per_share then
            (calculate_pending_rewards user_stake.staked_amount
              cfg.accumulated_per_share user_stake.reward_debt).bind
              (chAdd64 user_stake.pending_rewards)
          else some user_stake.pending_rewards) with
    | none => .error .overflow
    | some pr =>
      if transferOk = false then .error .transferFailed
      else
        match chAdd64 user_stake.staked_amount amount,
              chAdd64 cfg.total_staked amount with
        | some sa, some ts =>
          match calculate_reward_debt sa cfg.accumulated_per_share with
          | none => .error .overflow
          | some rd =>
            .ok ({ cfg with total_staked := ts },
                 { user_stake with
                     owner := owner
                     staked_amount := sa
                     stake_time := now
                     pending_rewards := pr
                     reward_debt := rd })
        | _, _ => .error .overflow

/-- Instruction `unstake`: the `Unstake` accounts struct requires
`user_stake.owner == owner.key()`; the handler deliberately performs no
pause check. -/
def unstake (cfg : KernelConfig) (user_stake : UserStake) (owner : Nat)
    (now : Int) (amount : Nat) (transferOk : Bool) :
    Except Err (KernelConfig × UserStake) :=
  if user_stake.owner ≠ owner then .error (.kernel .NotOwner)
  else if amount = 0 then .error (.kernel .ZeroAmount)
  else if user_stake.staked_amount < amount then .error (.kernel .InsufficientStake)
  else
    match (if 0 < cfg.accumulated_per_share then
            (calculate_pending_rewards user_stake.staked_amount
              cfg.accumulated_per_share user_stake.reward_debt).bind
              (chAdd64 user_stake.pending_rewards)
          else some user_stake.pending_rewards) with
    | none => .error .overflow
    | some pr =>
      if transferOk = false then .error .transferFailed
      else
        match chSub64 user_stake.staked_amount amount,
              chSub64 cfg.total_staked amount with
        | some sa, some ts =>
          match calculate_reward_debt sa cfg.accumulated_per_share with
          | none => .error .overflow
          | some rd =>
            .ok ({ cfg with total_staked := ts },
                 { user_stake with
                     staked_amount := sa
                     pending_rewards := pr
                     reward_debt := rd })
        | _, _ => .error .overflow

/-- Instruction `claim_reflections`: owner-constrained, no pause check;
pays `pending_rewards` plus the accumulator-derived delta. -/
def claim_reflections (cfg : KernelConfig) (user_stake : UserStake)
    (owner : Nat) (transferOk : Bool) :
    Except Err (KernelConfig × UserStake) :=
  if user_stake.owner ≠ owner then .error (.kernel .NotOwner)
  else
    match calculate_pending_rewards user_stake.staked_amount
            cfg.accumulated_per_share user_stake.reward_debt with
    | none => .error .overflow
    | some pending =>
      match chAdd64 user_stake.pending_rewards pending with
      | none => .error .overflow
      | some total_claimable =>
        if total_claimable = 0 then .error (.kernel .NothingToClaim)
        else if transferOk = false then .error .transferFailed
        else
          match chAdd64 user_stake.total_claimed total_claimable,
                calculate_reward_debt user_stake.staked_amount
                  cfg.accumulated_per_share,
                chAdd64 cfg.total_reflections_distributed total_claimable with
          | some tc, some rd, some trd =>
            .ok ({ cfg with
                     total_reflections_distributed := trd
                     pending_reflections :=
                       cfg.pending_reflections - total_claimable },
                 { user_stake with
                     pending_rewards := 0
                     total_claimed := tc
                     reward_debt := rd })
          | _, _, _ => .error .overflow

/-- Instruction `deposit_reflections`: the `DepositReflections` accounts
struct requires `config.authority == authority.key()`; on deposit with
stakers present the accumulator grows by
`amount * PRECISION / total_staked`. -/
def deposit_reflections (cfg : KernelConfig) (authority : Nat)
    (amount : Nat) (transferOk : Bool) : Except Err KernelConfig :=
  if cfg.authority ≠ authority then .error (.kernel .NotAuthority)
  else if amount = 0 then .error (.kernel .ZeroAmount)
  else if transferOk = false then .error .transferFailed
  else
    match (if 0 < cfg.total_staked then
            (chMul128 amount PRECISION).bind fun p =>
              chAdd128 cfg.accumulated_per_share (p / cfg.total_staked)
          else some cfg.accumulated_per_share) with
    | none => .error .overflow
    | some aps =>
      match chAdd64 cfg.pending_reflections amount with
      | none => .error .overflow
      | some pend =>
        .ok { cfg with accumulated_per_share := aps, pending_reflections := pend }

/-- Instruction `burn_tokens`: the `BurnTokens` accounts struct loads
`config` by seeds only — it carries no `config.authority` constraint, so
any signer burning their own tokens passes validation.  `burnOk` is the
outcome of the SPL `burn` CPI. -/
def burn_tokens (signer : Nat) (cfg : KernelConfig) (burn_record : BurnRecord)
    (now : Int) (amount : Nat) (burnOk : Bool) : Except Err BurnRecord :=
  if amount = 0 then .error (.kernel .ZeroAmount)
  else if burnOk = false then .error .transferFailed
  else
    match chAdd64 burn_record.total_burned amount,
          chAdd64 burn_record.burn_count 1 with
    | some tb, some bc =>
      .ok { burn_record with
              total_burned := tb
              burn_count := bc
              last_burn_time := now }
    | _, _ => .error .overflow

/-- Instruction `airdrop`: authority-constrained accounting-only
registration (no token movement). -/
def airdrop (cfg : KernelConfig) (st : AirdropState) (authority : Nat)
    (recipients : List Nat) (amount_per_recipient : Nat) :
    Except Err AirdropState :=
  if cfg.authority ≠ authority then .error (.kernel .NotAuthority)
  else if 50 < recipients.length then .error (.kernel .TooManyRecipients)
  else if amount_per_recipient = 0 then .error (.kernel .ZeroAmount)
  else
    match chMul64 recipients.length amount_per_recipient with
    | none => .error .overflow
    | some total =>
      match chAdd64 st.total_airdropped total,
            chAdd64 st.recipient_count recipients.length with
      | some ta, some rc =>
        .ok { st with total_airdropped := ta, recipient_count := rc }
      | _, _ => .error .overflow

/-- Instruction `propose_fee_update`: authority-constrained; validates
the fee triple and records the proposal with `executed = cancelled =
false`. -/
def propose_fee_update (cfg : KernelConfig) (authority : Nat)
    (reflection_share_bps lp_share_bps burn_share_bps : Nat) (now : Int) :
    Except Err FeeProposal :=
  if cfg.authority ≠ authority then .error (.kernel .NotAuthority)
  else
    match checkFeeConfig reflection_share_bps lp_share_bps burn_share_bps with
    | .error e => .error e
    | .ok _ =>
      .ok { proposer := authority
            reflection_share_bps := reflection_share_bps
            lp_share_bps := lp_share_bps
            burn_share_bps := burn_share_bps
            proposed_at := now
            executed := false
            cancelled := false }

/-- Instruction `execute_fee_update`: the `ExecuteFeeUpdate` accounts
struct requires `config.authority == authority.key()` and
`fee_proposal.proposer == authority.key()`; the handler then rejects
executed or cancelled proposals and an unexpired timelock, applies the
proposed fee triple, and marks the proposal executed. -/
def execute_fee_update (authority : Nat) (cfg : KernelConfig)
    (proposal : FeeProposal) (now : Int) :
    Except Err (KernelConfig × FeeProposal) :=
  if cfg.authority ≠ authority then .error (.kernel .NotAuthority)
  else if proposal.proposer ≠ authority then .error (.kernel .NotAuthority)
  else if proposal.executed = true then .error (.kernel .ProposalAlreadyExecuted)
  else if proposal.cancelled = true then .error (.kernel .ProposalCancelled)
  else if now - proposal.proposed_at < TIMELOCK_DURATION then
    .error (.kernel .TimelockNotExpired)
  else
    .ok ({ cfg with
             reflection_share_bps := proposal.reflection_share_bps
             lp_share_bps := proposal.lp_share_bps
             burn_share_bps := proposal.burn_share_bps },
         { proposal with executed := true })

/-- Instruction `cancel_fee_proposal`: authority-constrained; rejects
already-executed proposals, otherwise sets `cancelled`. -/
def cancel_fee_proposal (cfg : KernelConfig) (authority : Nat)
    (proposal : FeeProposal) : Except Err FeeProposal :=
  if cfg.authority ≠ authority then .error (.kernel .NotAuthority)
  else if proposal.executed = true then .error (.kernel .ProposalAlreadyExecuted)
  else .ok { proposal with cancelled := true }

/-- Instruction `update_fees` (emergency path): the `UpdateFees` accounts
struct requires `config.authority == authority.key()` and the presence
of a second signer `guardian`; the guardian's identity is subject to no
constraint in the source, which is why the `guardian` parameter is never
consulted below. -/
def update_fees (authority guardian : Nat) (cfg : KernelConfig)
    (reflection_share_bps lp_share_bps burn_share_bps : Nat) :
    Except Err KernelConfig :=
  if cfg.authority ≠ authority then .error (.kernel .NotAuthority)
  else
    match checkFeeConfig reflection_share_bps lp_share_bps burn_share_bps with
    | .error e => .error e
    | .ok _ =>
      .ok { cfg with
              reflection_share_bps := reflection_share_bps
              lp_share_bps := lp_share_bps
              burn_share_bps := burn_share_bps }

/-- Instruction `set_paused`: authority-constrained flag flip. -/
def set_paused (cfg : KernelConfig) (authority : Nat) (paused : Bool) :
    Except Err KernelConfig :=
  if cfg.authority ≠ authority then .error (.kernel .NotAuthority)
  else .ok { cfg with is_paused := paused }

/-- Instruction `propose_authority_transfer`: authority-constrained. -/
def propose_authority_transfer (cfg : KernelConfig) (authority : Nat)
    (new_authority : Nat) (now : Int) : Except Err PendingAuthorityTransfer :=
  if cfg.authority ≠ authority then .error (.kernel .NotAuthority)
  else
    .ok { proposer := authority
          new_authority := new_authority
          proposed_at := now
          executed := false
          cancelled := false }

/-- Instruction `execute_authority_transfer`: same constraints and
state-machine checks as the fee variant, with the authority-transfer
error codes; applies `new_authority` and marks the transfer executed. -/
def execute_authority_transfer (authority : Nat) (cfg : KernelConfig)
    (transfer : PendingAuthorityTransfer) (now : Int) :
    Except Err (KernelConfig × PendingAuthorityTransfer) :=
  if cfg.authority ≠ authority then .error (.kernel .NotAuthority)
  else if transfer.proposer ≠ authority then .error (.kernel .NotAuthority)
  else if transfer.executed = true then
    .error (.kernel .AuthorityTransferAlreadyExecuted)
  else if transfer.cancelled = true then
    .error (.kernel .AuthorityTransferCancelled)
  else if now - transfer.proposed_at < TIMELOCK_DURATION then
    .error (.kernel .TimelockNotExpired)
  else
    .ok ({ cfg with authority := transfer.new_authority },
         { transfer with executed := true })

/-- Instruction `cancel_authority_transfer`: authority-constrained;
rejects already-executed transfers, otherwise sets `cancelled`. -/
def cancel_authority_transfer (cfg : KernelConfig) (authority : Nat)
    (transfer : PendingAuthorityTransfer) : Except Err PendingAuthorityTransfer :=
  if cfg.authority ≠ authority then .error (.kernel .NotAuthority)
  else if transfer.executed = true then
    .error (.kernel .AuthorityTransferAlreadyExecuted)
  else .ok { transfer with cancelled := true }

/-- Instruction `initialize_lp_vault` (named `init_lp_vault` here, see
`init_config`): authority-constrained, zeroes all vault counters. -/
def init_lp_vault (cfg : KernelConfig) (authority : Nat) :
    Except Err LPVault :=
  if cfg.authority ≠ authority then .error (.kernel .NotAuthority)
  else
    .ok { authority := authority
          token_mint := cfg.token_mint
          total_allocated := 0
          total_deployed := 0
          pending_deployment := 0
          last_deployment_time := 0 }

/-- Instruction `allocate_to_lp`: authority-constrained, no pause check;
after the CPI both `total_allocated` and `pending_deployment` grow by
`amount`. -/
def allocate_to_lp (cfg : KernelConfig) (lp_vault : LPVault) (authority : Nat)
    (amount : Nat) (transferOk : Bool) : Except Err LPVault :=
  if cfg.authority ≠ authority then .error (.kernel .NotAuthority)
  else if amount = 0 then .error (.kernel .ZeroAmount)
  else if transferOk = false then .error .transferFailed
  else
    match chAdd64 lp_vault.total_allocated amount,
          chAdd64 lp_vault.pending_deployment amount with
    | some ta, some pd =>
      .ok { lp_vault with total_allocated := ta, pending_deployment := pd }
    | _, _ => .error .overflow

/-- Instruction `record_lp_deployment`: authority-constrained pure
bookkeeping (no CPI); moves `amount` from `pending_deployment` to
`total_deployed` and records an immutable `LPDeployment`. -/
def record_lp_deployment (cfg : KernelConfig) (lp_vault : LPVault)
    (authority : Nat) (amount lp_tokens_received pool_address : Nat)
    (now : Int) : Except Err (LPVault × LPDeployment) :=
  if cfg.authority ≠ authority then .error (.kernel .NotAuthority)
  else if amount = 0 then .error (.kernel .ZeroAmount)
  else if lp_vault.pending_deployment < amount then
    .error (.kernel .InsufficientLPFunds)
  else
    match chSub64 lp_vault.pending_deployment amount,
          chAdd64 lp_vault.total_deployed amount with
    | some pd, some td =>
      .ok ({ lp_vault with
               pending_deployment := pd
               total_deployed := td
               last_deployment_time := now },
           { pool_address := pool_address
             kernel_amount := amount
             lp_tokens_received := lp_tokens_received
             deployed_at := now
             withdrawn := false })
    | _, _ => .error .overflow

/-- Instruction `withdraw_from_lp_vault`: authority-constrained, no
pause check; decrements only `pending_deployment` (the source leaves
`total_allocated`, a cumulative "ever allocated" counter, untouched). -/
def withdraw_from_lp_vault (cfg : KernelConfig) (lp_vault : LPVault)
    (authority : Nat) (amount : Nat) (transferOk : Bool) :
    Except Err LPVault :=
  if cfg.authority ≠ authority then .error (.kernel .NotAuthority)
  else if amount = 0 then .error (.kernel .ZeroAmount)
  else if lp_vault.pending_deployment < amount then
    .error (.kernel .InsufficientLPFunds)
  else if transferOk = false then .error .transferFailed
  else
    match chSub64 lp_vault.pending_deployment amount with
    | none => .error .overflow
    | some pd => .ok { lp_vault with pending_deployment := pd }

/-- A fresh, lazily created `UserStake` account before its first `stake`
(Anchor `init_if_needed` zero-initialises every field). -/
def initStake : UserStake :=
  { owner := 0, staked_amount := 0, stake_time := 0, pending_rewards := 0
    total_claimed := 0, reward_debt := 0 }

/-- Look up a participant's position in the pool's position store;
absent participants have the zero-initialised account. -/
def getPos : List (Nat × UserStake) → Nat → UserStake
  | [], _ => initStake
  | (q, u) :: t, p => if q = p then u else getPos t p

/-- Store a participant's position, replacing the first existing entry
for that participant or appending a new one. -/
def updatePos : List (Nat × UserStake) → Nat → UserStake → List (Nat × UserStake)
  | [], p, v => [(p, v)]
  | (q, u) :: t, p, v =>
    if q = p then (p, v) :: t else (q, u) :: updatePos t p v

/-- Sum of `staked_amount` over all stored positions. -/
def sumStaked (l : List (Nat × UserStake)) : Nat :=
  (l.map fun pr => pr.2.staked_amount).sum

/-- One externally-triggered pool operation: the participant (or the
authority for deposits), the call arguments, and the outcome of the
operation's Transfer Service CPI. -/
inductive PoolOp where
  | stakeOp (p : Nat) (now : Int) (amount : Nat) (transferOk : Bool)
  | unstakeOp (p : Nat) (now : Int) (amount : Nat) (transferOk : Bool)
  | claimOp (p : Nat) (transferOk : Bool)
  | depositOp (amount : Nat) (transferOk : Bool)

/-- The pool-wide state: the `KernelConfig` account plus all
`UserStake` accounts of the pool. -/
structure PoolState where
  config : KernelConfig
  positions : List (Nat × UserStake)

/-- Modelled from the spec: the host serialises operations on a pool and
commits account writes only for instructions that return `Ok` (spec
section 5); a failed instruction leaves the stored state unchanged.
This applies one operation to the stored pool state. -/
def runPoolOp (s : PoolState) : PoolOp → PoolState
  | .stakeOp p now a t =>
    match stake s.config (getPos s.positions p) p now a t with
    | .ok (cfg, us) => { config := cfg, positions := updatePos s.positions p us }
    | .error _ => s
  | .unstakeOp p now a t =>
    match unstake s.config (getPos s.positions p) p now a t with
    | .ok (cfg, us) => { config := cfg, positions := updatePos s.positions p us }
    | .error _ => s
  | .claimOp p t =>
    match claim_reflections s.config (getPos s.positions p) p t with
    | .ok (cfg, us) => { config := cfg, positions := updatePos s.positions p us }
    | .error _ => s
  | .depositOp a t =>
    match deposit_reflections s.config s.config.authority a t with
    | .ok cfg => { s with config := cfg }
    | .error _ => s

/-- Apply a sequence of pool operations. -/
def runPool (s : PoolState) (ops : List PoolOp) : PoolState :=
  ops.foldl runPoolOp s

/-- One externally-triggered LP-vault operation with the outcome of its
Transfer Service CPI (recording a deployment performs no CPI). -/
inductive LPOp where
  | allocOp (amount : Nat) (transferOk : Bool)
  | recordOp (amount lp_tokens pool : Nat) (now : Int)
  | withdrawOp (amount : Nat) (transferOk : Bool)

/-- The stored `LPVault` together with a ghost counter of everything
successfully withdrawn from it so far. -/
structure LPTrace where
  vault : LPVault
  withdrawnTotal : Nat

/-- Modelled from the spec: serialized, commit-on-success application of
one LP-vault operation (spec section 5), called by the authority. -/
def runLPOp (cfg : KernelConfig) (authority : Nat) (s : LPTrace) :
    LPOp → LPTrace
  | .allocOp a t =>
    match allocate_to_lp cfg s.vault authority a t with
    | .ok v => { s with vault := v }
    | .error _ => s
  | .recordOp a l p n =>
    match record_lp_deployment cfg s.vault authority a l p n with
    | .ok (v, _) => { s with vault := v }
    | .error _ => s
  | .withdrawOp a t =>
    match withdraw_from_lp_vault cfg s.vault authority a t with
    | .ok v => { vault := v, withdrawnTotal := s.withdrawnTotal + a }
    | .error _ => s

/-- Apply a sequence of LP-vault operations. -/
def runLP (cfg : KernelConfig) (authority : Nat) (s : LPTrace)
    (ops : List LPOp) : LPTrace :=
  ops.foldl (runLPOp cfg authority) s

theorem chAdd64_some {x y z : Nat} (h : chAdd64 x y = some z) :
    z = x + y ∧ x + y < 2 ^ 64 := by
  unfold chAdd64 at h
  split at h <;> simp_all

theorem chSub64_some {x y z : Nat} (h : chSub64 x y = some z) :
    z = x - y ∧ y ≤ x := by
  unfold chSub64 at h
  split at h <;> simp_all

theorem chAdd16_some {x y z : Nat} (h : chAdd16 x y = some z) :
    z = x + y ∧ x + y < 2 ^ 16 := by
  unfold chAdd16 at h
  split at h <;> simp_all

theorem getPos_absent_staked (p : Nat) : (getPos [] p).staked_amount = 0 := rfl

theorem sumStaked_updatePos (l : List (Nat × UserStake)) (p : Nat)
    (v : UserStake) :
    sumStaked (updatePos l p v) + (getPos l p).staked_amount
      = sumStaked l + v.staked_amount := by
  induction l with
  | nil => simp [updatePos, getPos, sumStaked, initStake]
  | cons hd t ih =>
    obtain ⟨q, u⟩ := hd
    by_cases h : q = p
    · subst h
      simp [updatePos, getPos, sumStaked]
      omega
    · simp only [updatePos, getPos, if_neg h, sumStaked, List.map_cons,
        List.sum_cons] at *
      omega

theorem stake_ok_totals {cfg : KernelConfig} {us : UserStake} {p : Nat}
    {now : Int} {a : Nat} {t : Bool} {cfg1 : KernelConfig} {us1 : UserStake}
    (h : stake cfg us p now a t = .ok (cfg1, us1)) :
    cfg1.total_staked = cfg.total_staked + a
      ∧ us1.staked_amount = us.staked_amount + a := by
  unfold stake at h
  split at h
  · exact absurd h (by simp)
  · split at h
    · exact absurd h (by simp)
    · split at h
      · exact absurd h (by simp)
      · split at h
        · exact absurd h (by simp)
        · split at h
          · rename_i hsa hts
            split at h
            · exact absurd h (by simp)
            · rename_i hrd
              rw [Except.ok.injEq, Prod.mk.injEq] at h
              obtain ⟨hc, hu⟩ := h
              subst hc; subst hu
              exact ⟨((chAdd64_some hts).1).symm ▸ rfl,
                     ((chAdd64_some hsa).1).symm ▸ rfl⟩
          · exact absurd h (by simp)

theorem unstake_ok_totals {cfg : KernelConfig} {us : UserStake} {p : Nat}
    {now : Int} {a : Nat} {t : Bool} {cfg1 : KernelConfig} {us1 : UserStake}
    (h : unstake cfg us p now a t = .ok (cfg1, us1)) :
    a ≤ us.staked_amount ∧ a ≤ cfg.total_staked
      ∧ cfg1.total_staked = cfg.total_staked - a
      ∧ us1.staked_amount = us.staked_amount - a := by
  unfold unstake at h
  split at h
  · exact absurd h (by simp)
  · split at h
    · exact absurd h (by simp)
    · split at h
      · exact absurd h (by simp)
      · rename_i hstk
        split at h
        · exact absurd h (by simp)
        · split at h
          · exact absurd h (by simp)
          · split at h
            · rename_i hsa hts
              split at h
              · exact absurd h (by simp)
              · rw [Except.ok.injEq, Prod.mk.injEq] at h
                obtain ⟨hc, hu⟩ := h
                subst hc; subst hu
                refine ⟨by omega, (chSub64_some hts).2, ?_, ?_⟩
                · exact ((chSub64_some hts).1).symm ▸ rfl
                · exact ((chSub64_some hsa).1).symm ▸ rfl
            · exact absurd h (by simp)

theorem claim_ok_totals {cfg : KernelConfig} {us : UserStake} {p : Nat}
    {t : Bool} {cfg1 : KernelConfig} {us1 : UserStake}
    (h : claim_reflections cfg us p t = .ok (cfg1, us1)) :
    cfg1.total_staked = cfg.total_staked
      ∧ us1.staked_amount = us.staked_amount := by
  unfold claim_reflections at h
  split at h
  · exact absurd h (by simp)
  · split at h
    · exact absurd h (by simp)
    · split at h
      · exact absurd h (by simp)
      · split at h
        · exact absurd h (by simp)
        · split at h
          · exact absurd h (by simp)
          · split at h
            · rw [Except.ok.injEq, Prod.mk.injEq] at h
              obtain ⟨hc, hu⟩ := h
              subst hc; subst hu
              exact ⟨rfl, rfl⟩
            · exact absurd h (by simp)

theorem deposit_ok_totals {cfg : KernelConfig} {auth : Nat} {a : Nat}
    {t : Bool} {cfg1 : KernelConfig}
    (h : deposit_reflections cfg auth a t = .ok cfg1) :
    cfg1.total_staked = cfg.total_staked := by
  unfold deposit_reflections at h
  split at h
  · exact absurd h (by simp)
  · split at h
    · exact absurd h (by simp)
    · split at h
      · exact absurd h (by simp)
      · split at h
        · exact absurd h (by simp)
        · split at h
          · exact absurd h (by simp)
          · rw [Except.ok.injEq] at h
            subst h
            rfl

theorem runPoolOp_conserves (s : PoolState) (op : PoolOp)
    (h : s.config.total_staked = sumStaked s.positions) :
    (runPoolOp s op).config.total_staked = sumStaked (runPoolOp s op).positions := by
  cases op with
  | stakeOp p now a t =>
    simp only [runPoolOp]
    cases hr : stake s.config (getPos s.positions p) p now a t with
    | error e => simpa using h
    | ok out =>
      obtain ⟨cfg1, us1⟩ := out
      show cfg1.total_staked = sumStaked (updatePos s.positions p us1)
      obtain ⟨hc, hu⟩ := stake_ok_totals hr
      have hsum := sumStaked_updatePos s.positions p us1
      simp only [hc, hu] at *
      omega
  | unstakeOp p now a t =>
    simp only [runPoolOp]
    cases hr : unstake s.config (getPos s.positions p) p now a t with
    | error e => simpa using h
    | ok out =>
      obtain ⟨cfg1, us1⟩ := out
      show cfg1.total_staked = sumStaked (updatePos s.positions p us1)
      obtain ⟨hle, hle2, hc, hu⟩ := unstake_ok_totals hr
      have hsum := sumStaked_updatePos s.positions p us1
      simp only [hc, hu] at *
      omega
  | claimOp p t =>
    simp only [runPoolOp]
    cases hr : claim_reflections s.config (getPos s.positions p) p t with
    | error e => simpa using h
    | ok out =>
      obtain ⟨cfg1, us1⟩ := out
      show cfg1.total_staked = sumStaked (updatePos s.positions p us1)
      obtain ⟨hc, hu⟩ := claim_ok_totals hr
      have hsum := sumStaked_updatePos s.positions p us1
      simp only [hc, hu] at *
      omega
  | depositOp a t =>
    simp only [runPoolOp]
    cases hr : deposit_reflections s.config s.config.authority a t with
    | error e => simpa using h
    | ok cfg1 =>
      show cfg1.total_staked = sumStaked s.positions
      have hc := deposit_ok_totals hr
      rw [hc]
      exact h

theorem runPool_conserves (s : PoolState)
    (h : s.config.total_staked = sumStaked s.positions) (ops : List PoolOp) :
    (runPool s ops).config.total_staked = sumStaked (runPool s ops).positions := by
  induction ops generalizing s with
  | nil => simpa [runPool] using h
  | cons op t ih =>
    have : runPool s (op :: t) = runPool (runPoolOp s op) t := by
      simp [runPool]
    rw [this]
    exact ih _ (runPoolOp_conserves s op h)

theorem allocate_ok_totals {cfg : KernelConfig} {v : LPVault} {auth : Nat}
    {a : Nat} {t : Bool} {v1 : LPVault}
    (h : allocate_to_lp cfg v auth a t = .ok v1) :
    v1.total_allocated = v.total_allocated + a
      ∧ v1.total_deployed = v.total_deployed
      ∧ v1.pending_deployment = v.pending_deployment + a := by
  unfold allocate_to_lp at h
  split at h
  · exact absurd h (by simp)
  · split at h
    · exact absurd h (by simp)
    · split at h
      · exact absurd h (by simp)
      · split at h
        · rename_i hta hpd
          rw [Except.ok.injEq] at h
          subst h
          exact ⟨((chAdd64_some hta).1).symm ▸ rfl, rfl,
                 ((chAdd64_some hpd).1).symm ▸ rfl⟩
        · exact absurd h (by simp)

theorem record_ok_totals {cfg : KernelConfig} {v : LPVault} {auth : Nat}
    {a l pa : Nat} {now : Int} {v1 : LPVault} {d : LPDeployment}
    (h : record_lp_deployment cfg v auth a l pa now = .ok (v1, d)) :
    a ≤ v.pending_deployment
      ∧ v1.total_allocated = v.total_allocated
      ∧ v1.total_deployed = v.total_deployed + a
      ∧ v1.pending_deployment = v.pending_deployment - a := by
  unfold record_lp_deployment at h
  split at h
  · exact absurd h (by simp)
  · split at h
    · exact absurd h (by simp)
    · split at h
      · exact absurd h (by simp)
      · split at h
        · rename_i hpd htd
          rw [Except.ok.injEq, Prod.mk.injEq] at h
          obtain ⟨hv, hd⟩ := h
          subst hv; subst hd
          exact ⟨(chSub64_some hpd).2, rfl,
                 ((chAdd64_some htd).1).symm ▸ rfl,
                 ((chSub64_some hpd).1).symm ▸ rfl⟩
        · exact absurd h (by simp)

theorem withdraw_ok_totals {cfg : KernelConfig} {v : LPVault} {auth : Nat}
    {a : Nat} {t : Bool} {v1 : LPVault}
    (h : withdraw_from_lp_vault cfg v auth a t = .ok v1) :
    a ≤ v.pending_deployment
      ∧ v1.total_allocated = v.total_allocated
      ∧ v1.total_deployed = v.total_deployed
      ∧ v1.pending_deployment = v.pending_deployment - a := by
  unfold withdraw_from_lp_vault at h
  split at h
  · exact absurd h (by simp)
  · split at h
    · exact absurd h (by simp)
    · split at h
      · exact absurd h (by simp)
      · split at h
        · exact absurd h (by simp)
        · split at h
          · exact absurd h (by simp)
          · rename_i hpd
            rw [Except.ok.injEq] at h
            subst h
            exact ⟨(chSub64_some hpd).2, rfl, rfl,
                   ((chSub64_some hpd).1).symm ▸ rfl⟩

theorem runLPOp_decomposes (cfg : KernelConfig) (auth : Nat) (s : LPTrace)
    (op : LPOp)
    (h : s.vault.total_allocated
          = s.vault.total_deployed + s.vault.pending_deployment
            + s.withdrawnTotal) :
    (runLPOp cfg auth s op).vault.total_allocated
      = (runLPOp cfg auth s op).vault.total_deployed
        + (runLPOp cfg auth s op).vault.pending_deployment
        + (runLPOp cfg auth s op).withdrawnTotal := by
  cases op with
  | allocOp a t =>
    simp only [runLPOp]
    cases hr : allocate_to_lp cfg s.vault auth a t with
    | error e => exact h
    | ok v1 =>
      show v1.total_allocated
        = v1.total_deployed + v1.pending_deployment + s.withdrawnTotal
      obtain ⟨h1, h2, h3⟩ := allocate_ok_totals hr
      omega
  | recordOp a l pa now =>
    simp only [runLPOp]
    cases hr : record_lp_deployment cfg s.vault auth a l pa now with
    | error e => exact h
    | ok out =>
      obtain ⟨v1, d⟩ := out
      show v1.total_allocated
        = v1.total_deployed + v1.pending_deployment + s.withdrawnTotal
      obtain ⟨hle, h1, h2, h3⟩ := record_ok_totals hr
      omega
  | withdrawOp a t =>
    simp only [runLPOp]
    cases hr : withdraw_from_lp_vault cfg s.vault auth a t with
    | error e => exact h
    | ok v1 =>
      show v1.total_allocated
        = v1.total_deployed + v1.pending_deployment + (s.withdrawnTotal + a)
      obtain ⟨hle, h1, h2, h3⟩ := withdraw_ok_totals hr
      omega

theorem runLP_decomposes (cfg : KernelConfig) (auth : Nat) (s : LPTrace)
    (h : s.vault.total_allocated
          = s.vault.total_deployed + s.vault.pending_deployment
            + s.withdrawnTotal) (ops : List LPOp) :
    (runLP cfg auth s ops).vault.total_allocated
      = (runLP cfg auth s ops).vault.total_deployed
        + (runLP cfg auth s ops).vault.pending_deployment
        + (runLP cfg auth s ops).withdrawnTotal := by
  induction ops generalizing s with
  | nil => simpa [runLP] using h
  | cons op t ih =>
    have hstep : runLP cfg auth s (op :: t) = runLP cfg auth (runLPOp cfg auth s op) t := by
      simp [runLP]
    rw [hstep]
    exact ih _ (runLPOp_decomposes cfg auth s op h)

theorem persist_of_error {α : Type} (old : α) (e : Except Err α)
    (h : exOk e = false) : persist old e = old := by
  cases e with
  | ok a => simp [exOk] at h
  | error err => rfl

/-- Claim C1 counterexample: starting from a freshly initialized LP
vault, a successful `allocate_to_lp` of 10 followed by a successful
`withdraw_from_lp_vault` of 5 leaves `total_allocated = 10` but
`total_deployed + pending_deployment = 0 + 5`, so the claimed equality
fails after a withdraw. -/
theorem c1_lp_conservation_fails_after_withdraw :
    allocate_to_lp ⟨1, 2, 200, 200, 100, 0, 0, 0, 0, false⟩
        ⟨1, 2, 0, 0, 0, 0⟩ 1 10 true = .ok ⟨1, 2, 10, 0, 10, 0⟩
  ∧ withdraw_from_lp_vault ⟨1, 2, 200, 200, 100, 0, 0, 0, 0, false⟩
        ⟨1, 2, 10, 0, 10, 0⟩ 1 5 true = .ok ⟨1, 2, 10, 0, 5, 0⟩
  ∧ (⟨1, 2, 10, 0, 5, 0⟩ : LPVault).total_allocated
      ≠ (⟨1, 2, 10, 0, 5, 0⟩ : LPVault).total_deployed
        + (⟨1, 2, 10, 0, 5, 0⟩ : LPVault).pending_deployment :=
  ⟨rfl, rfl, by decide⟩

/-- Claim C1 (amended): for every sequence of allocate_to_lp,
record_lp_deployment and withdraw_from_lp_vault operations on an
initialized LP vault, after each operation `total_allocated` equals
`total_deployed + pending_deployment` plus the sum of all successfully
withdrawn amounts (`withdraw_from_lp_vault` decrements only
`pending_deployment`; `total_allocated` is a cumulative counter). -/
theorem c1_lp_allocated_decomposition (cfg : KernelConfig) (auth : Nat)
    (v0 : LPVault) (h : init_lp_vault cfg auth = .ok v0) (ops : List LPOp) :
    (runLP cfg auth ⟨v0, 0⟩ ops).vault.total_allocated
      = (runLP cfg auth ⟨v0, 0⟩ ops).vault.total_deployed
        + (runLP cfg auth ⟨v0, 0⟩ ops).vault.pending_deployment
        + (runLP cfg auth ⟨v0, 0⟩ ops).withdrawnTotal := by
  have h0 : v0.total_allocated = 0 ∧ v0.total_deployed = 0
      ∧ v0.pending_deployment = 0 := by
    unfold init_lp_vault at h
    split at h
    · exact absurd h (by simp)
    · rw [Except.ok.injEq] at h
      subst h
      exact ⟨rfl, rfl, rfl⟩
  exact runLP_decomposes cfg auth ⟨v0, 0⟩
    (by obtain ⟨h1, h2, h3⟩ := h0; simp [h1, h2, h3]) ops

theorem c1_lp_allocated_decomposition_witness :
    init_lp_vault ⟨1, 2, 200, 200, 100, 0, 0, 0, 0, false⟩ 1
        = .ok ⟨1, 2, 0, 0, 0, 0⟩
  ∧ (runLP ⟨1, 2, 200, 200, 100, 0, 0, 0, 0, false⟩ 1 ⟨⟨1, 2, 0, 0, 0, 0⟩, 0⟩
        [.allocOp 10 true, .recordOp 4 7 9 5, .withdrawOp 5 true]).vault.total_allocated
      = (runLP ⟨1, 2, 200, 200, 100, 0, 0, 0, 0, false⟩ 1 ⟨⟨1, 2, 0, 0, 0, 0⟩, 0⟩
          [.allocOp 10 true, .recordOp 4 7 9 5, .withdrawOp 5 true]).vault.total_deployed
        + (runLP ⟨1, 2, 200, 200, 100, 0, 0, 0, 0, false⟩ 1 ⟨⟨1, 2, 0, 0, 0, 0⟩, 0⟩
            [.allocOp 10 true, .recordOp 4 7 9 5, .withdrawOp 5 true]).vault.pending_deployment
        + (runLP ⟨1, 2, 200, 200, 100, 0, 0, 0, 0, false⟩ 1 ⟨⟨1, 2, 0, 0, 0, 0⟩, 0⟩
            [.allocOp 10 true, .recordOp 4 7 9 5, .withdrawOp 5 true]).withdrawnTotal :=
  ⟨rfl, c1_lp_allocated_decomposition ⟨1, 2, 200, 200, 100, 0, 0, 0, 0, false⟩ 1
      ⟨1, 2, 0, 0, 0, 0⟩ rfl
      [.allocOp 10 true, .recordOp 4 7 9 5, .withdrawOp 5 true]⟩

/-- Claim C5: for every sequence of stake, unstake (and claim/deposit)
operations on a pool starting from initialization,
`PoolConfig.total_staked` equals the sum of `staked_amount` over all of
the pool's stake positions after each operation. -/
theorem c5_total_staked_conservation (authority token_mint r l b : Nat)
    (cfg : KernelConfig)
    (h : init_config authority token_mint r l b = .ok cfg)
    (ops : List PoolOp) :
    (runPool ⟨cfg, []⟩ ops).config.total_staked
      = sumStaked (runPool ⟨cfg, []⟩ ops).positions := by
  have h0 : cfg.total_staked = 0 := by
    unfold init_config at h
    split at h
    · exact absurd h (by simp)
    · rw [Except.ok.injEq] at h
      subst h
      rfl
  exact runPool_conserves ⟨cfg, []⟩ (by simp [h0, sumStaked]) ops

theorem c5_total_staked_conservation_witness :
    init_config 1 2 200 200 100 = .ok ⟨1, 2, 200, 200, 100, 0, 0, 0, 0, false⟩
  ∧ (runPool ⟨⟨1, 2, 200, 200, 100, 0, 0, 0, 0, false⟩, []⟩
        [.stakeOp 7 0 100 true, .stakeOp 8 0 50 true, .unstakeOp 7 1 30 true,
         .depositOp 10 true, .claimOp 7 true]).config.total_staked
      = sumStaked (runPool ⟨⟨1, 2, 200, 200, 100, 0, 0, 0, 0, false⟩, []⟩
          [.stakeOp 7 0 100 true, .stakeOp 8 0 50 true, .unstakeOp 7 1 30 true,
           .depositOp 10 true, .claimOp 7 true]).positions :=
  ⟨rfl, c5_total_staked_conservation 1 2 200 200 100
      ⟨1, 2, 200, 200, 100, 0, 0, 0, 0, false⟩ rfl
      [.stakeOp 7 0 100 true, .stakeOp 8 0 50 true, .unstakeOp 7 1 30 true,
       .depositOp 10 true, .claimOp 7 true]⟩

/-- Claim C8: for every operation that invokes the Transfer Service
(stake, unstake, claim_reflections, deposit_reflections, allocate_to_lp,
withdraw_from_lp_vault, burn_tokens), if the transfer or burn CPI fails
the operation returns an error and the persisted ledger state is
unchanged — including fields such as the stake position's
`pending_rewards` whose in-memory write precedes the CPI, since the host
commits account writes only on `Ok`. -/
theorem c8_transfer_failure_no_ledger_change (cfg : KernelConfig)
    (us : UserStake) (v : LPVault) (rec : BurnRecord) (p auth : Nat)
    (now : Int) (a : Nat) :
    exOk (stake cfg us p now a false) = false
  ∧ persist (cfg, us) (stake cfg us p now a false) = (cfg, us)
  ∧ exOk (unstake cfg us p now a false) = false
  ∧ persist (cfg, us) (unstake cfg us p now a false) = (cfg, us)
  ∧ exOk (claim_reflections cfg us p false) = false
  ∧ persist (cfg, us) (claim_reflections cfg us p false) = (cfg, us)
  ∧ exOk (deposit_reflections cfg auth a false) = false
  ∧ persist cfg (deposit_reflections cfg auth a false) = cfg
  ∧ exOk (allocate_to_lp cfg v auth a false) = false
  ∧ persist v (allocate_to_lp cfg v auth a false) = v
  ∧ exOk (withdraw_from_lp_vault cfg v auth a false) = false
  ∧ persist v (withdraw_from_lp_vault cfg v auth a false) = v
  ∧ exOk (burn_tokens p cfg rec now a false) = false
  ∧ persist rec (burn_tokens p cfg rec now a false) = rec := by
  have h1 : exOk (stake cfg us p now a false) = false := by
    unfold stake
    repeat' split <;> try rfl
  have h2 : exOk (unstake cfg us p now a false) = false := by
    unfold unstake
    repeat' split <;> try rfl
  have h3 : exOk (claim_reflections cfg us p false) = false := by
    unfold claim_reflections
    repeat' split <;> try rfl
  have h4 : exOk (deposit_reflections cfg auth a false) = false := by
    unfold deposit_reflections
    repeat' split <;> try rfl
  have h5 : exOk (allocate_to_lp cfg v auth a false) = false := by
    unfold allocate_to_lp
    repeat' split <;> try rfl
  have h6 : exOk (withdraw_from_lp_vault cfg v auth a false) = false := by
    unfold withdraw_from_lp_vault
    repeat' split <;> try rfl
  have h7 : exOk (burn_tokens p cfg rec now a false) = false := by
    unfold burn_tokens
    repeat' split <;> try rfl
  exact ⟨h1, persist_of_error _ _ h1, h2, persist_of_error _ _ h2,
         h3, persist_of_error _ _ h3, h4, persist_of_error _ _ h4,
         h5, persist_of_error _ _ h5, h6, persist_of_error _ _ h6,
         h7, persist_of_error _ _ h7⟩

theorem execute_fee_update_cases (s : Nat) (cfg : KernelConfig)
    (p : FeeProposal) (now : Int) (hs : cfg.authority = s)
    (hp : p.proposer = s) :
    execute_fee_update s cfg p now
      = (if p.executed = true then .error (.kernel .ProposalAlreadyExecuted)
         else if p.cancelled = true then .error (.kernel .ProposalCancelled)
         else if now - p.proposed_at < TIMELOCK_DURATION then
           .error (.kernel .TimelockNotExpired)
         else .ok ({ cfg with
                       reflection_share_bps := p.reflection_share_bps
                       lp_share_bps := p.lp_share_bps
                       burn_share_bps := p.burn_share_bps },
                   { p with executed := true })) := by
  unfold execute_fee_update
  rw [hs, hp]
  simp

theorem execute_authority_transfer_cases (s : Nat) (cfg : KernelConfig)
    (q : PendingAuthorityTransfer) (now : Int) (hs : cfg.authority = s)
    (hq : q.proposer = s) :
    execute_authority_transfer s cfg q now
      = (if q.executed = true then
           .error (.kernel .AuthorityTransferAlreadyExecuted)
         else if q.cancelled = true then
           .error (.kernel .AuthorityTransferCancelled)
         else if now - q.proposed_at < TIMELOCK_DURATION then
           .error (.kernel .TimelockNotExpired)
         else .ok ({ cfg with authority := q.new_authority },
                   { q with executed := true })) := by
  unfold execute_authority_transfer
  rw [hs, hq]
  simp

/-- Claim C2: for every timelock proposal (fee update or authority
transfer) whose authorized proposer calls execute, execution succeeds
iff `now - proposed_at ≥ 86400` and the proposal is neither executed nor
cancelled; on success the payload is applied and `executed` is set, so a
second execute on the same proposal fails with the already-executed
error, and a cancelled proposal rejects execute at every elapsed time. -/
theorem c2_timelock_execute (s : Nat) (cfg : KernelConfig) (p : FeeProposal)
    (q : PendingAuthorityTransfer) (now now2 : Int)
    (hs : cfg.authority = s) (hp : p.proposer = s) (hq : q.proposer = s) :
    (exOk (execute_fee_update s cfg p now) = true
       ↔ p.executed = false ∧ p.cancelled = false
         ∧ (86400 : Int) ≤ now - p.proposed_at)
  ∧ (exOk (execute_fee_update s cfg p now) = true →
       execute_fee_update s cfg p now
         = .ok ({ cfg with
                    reflection_share_bps := p.reflection_share_bps
                    lp_share_bps := p.lp_share_bps
                    burn_share_bps := p.burn_share_bps },
                { p with executed := true })
       ∧ execute_fee_update s
           { cfg with
               reflection_share_bps := p.reflection_share_bps
               lp_share_bps := p.lp_share_bps
               burn_share_bps := p.burn_share_bps }
           { p with executed := true } now2
         = .error (.kernel .ProposalAlreadyExecuted))
  ∧ (p.cancelled = true → p.executed = false →
       execute_fee_update s cfg p now = .error (.kernel .ProposalCancelled))
  ∧ (exOk (execute_authority_transfer s cfg q now) = true
       ↔ q.executed = false ∧ q.cancelled = false
         ∧ (86400 : Int) ≤ now - q.proposed_at)
  ∧ (exOk (execute_authority_transfer s cfg q now) = true →
       execute_authority_transfer s cfg q now
         = .ok ({ cfg with authority := q.new_authority },
                { q with executed := true })
       ∧ (q.new_authority = s →
            execute_authority_transfer s { cfg with authority := q.new_authority }
              { q with executed := true } now2
            = .error (.kernel .AuthorityTransferAlreadyExecuted)))
  ∧ (q.cancelled = true → q.executed = false →
       execute_authority_transfer s cfg q now
         = .error (.kernel .AuthorityTransferCancelled)) := by
  have hfee := execute_fee_update_cases s cfg p now hs hp
  have hauth := execute_authority_transfer_cases s cfg q now hs hq
  refine ⟨?_, ?_, ?_, ?_, ?_, ?_⟩
  · rw [hfee]
    split_ifs with he hc ht
    · simp [exOk, he]
    · simp [exOk, he, hc]
    · unfold TIMELOCK_DURATION at ht
      simp [exOk, he, hc]
      omega
    · unfold TIMELOCK_DURATION at ht
      simp [exOk, he, hc]
      omega
  · intro hok
    rw [hfee] at hok ⊢
    split_ifs at hok with he hc ht
    · simp [exOk] at hok
    · simp [exOk] at hok
    · simp [exOk] at hok
    · refine ⟨by simp [he, hc, ht], ?_⟩
      rw [execute_fee_update_cases s
            { cfg with
                reflection_share_bps := p.reflection_share_bps
                lp_share_bps := p.lp_share_bps
                burn_share_bps := p.burn_share_bps }
            { p with executed := true } now2 (by simp [hs]) (by simp [hp])]
      simp
  · intro hc he
    rw [hfee]
    simp [hc, he]
  · rw [hauth]
    split_ifs with he hc ht
    · simp [exOk, he]
    · simp [exOk, he, hc]
    · unfold TIMELOCK_DURATION at ht
      simp [exOk, he, hc]
      omega
    · unfold TIMELOCK_DURATION at ht
      simp [exOk, he, hc]
      omega
  · intro hok
    rw [hauth] at hok ⊢
    split_ifs at hok with he hc ht
    · simp [exOk] at hok
    · simp [exOk] at hok
    · simp [exOk] at hok
    · refine ⟨by simp [he, hc, ht], ?_⟩
      intro hnew
      rw [execute_authority_transfer_cases s
            { cfg with authority := q.new_authority }
            { q with executed := true } now2 (by simp [hnew]) (by simp [hq])]
      simp
  · intro hc he
    rw [hauth]
    simp [hc, he]

theorem c2_timelock_execute_witness :
    ((⟨1, 2, 200, 200, 100, 0, 0, 0, 0, false⟩ : KernelConfig).authority = 1)
  ∧ ((⟨1, 300, 150, 50, 0, false, false⟩ : FeeProposal).proposer = 1)
  ∧ exOk (execute_fee_update 1 ⟨1, 2, 200, 200, 100, 0, 0, 0, 0, false⟩
        ⟨1, 300, 150, 50, 0, false, false⟩ 86400) = true
  ∧ execute_fee_update 1 ⟨1, 2, 300, 150, 50, 0, 0, 0, 0, false⟩
        ⟨1, 300, 150, 50, 0, true, false⟩ 200000
      = .error (.kernel .ProposalAlreadyExecuted)
  ∧ execute_fee_update 1 ⟨1, 2, 200, 200, 100, 0, 0, 0, 0, false⟩
        ⟨1, 300, 150, 50, 0, false, true⟩ 200000
      = .error (.kernel .ProposalCancelled)
  ∧ exOk (execute_authority_transfer 1 ⟨1, 2, 200, 200, 100, 0, 0, 0, 0, false⟩
        ⟨1, 1, 0, false, false⟩ 86400) = true
  ∧ execute_authority_transfer 1 ⟨1, 2, 200, 200, 100, 0, 0, 0, 0, false⟩
        ⟨1, 1, 0, true, false⟩ 200000
      = .error (.kernel .AuthorityTransferAlreadyExecuted) := by
  have A := c2_timelock_execute 1 ⟨1, 2, 200, 200, 100, 0, 0, 0, 0, false⟩
      ⟨1, 300, 150, 50, 0, false, false⟩ ⟨1, 1, 0, false, false⟩ 86400 200000
      rfl rfl rfl
  have B := c2_timelock_execute 1 ⟨1, 2, 200, 200, 100, 0, 0, 0, 0, false⟩
      ⟨1, 300, 150, 50, 0, false, true⟩ ⟨1, 1, 0, false, false⟩ 86400 200000
      rfl rfl rfl
  have h3 : exOk (execute_fee_update 1 ⟨1, 2, 200, 200, 100, 0, 0, 0, 0, false⟩
      ⟨1, 300, 150, 50, 0, false, false⟩ 86400) = true :=
    A.1.mpr ⟨rfl, rfl, by decide⟩
  have h6 : exOk (execute_authority_transfer 1 ⟨1, 2, 200, 200, 100, 0, 0, 0, 0, false⟩
      ⟨1, 1, 0, false, false⟩ 86400) = true :=
    A.2.2.2.1.mpr ⟨rfl, rfl, by decide⟩
  exact ⟨rfl, rfl, h3, (A.2.1 h3).2, B.2.2.1 rfl rfl, h6,
         (A.2.2.2.2.1 h6).2 rfl⟩

theorem checkFeeConfig_ok {r l b : Nat} {u : Unit}
    (h : checkFeeConfig r l b = .ok u) : r + l + b = 500 := by
  unfold checkFeeConfig at h
  split at h
  · exact absurd h (by simp)
  · rename_i s1 h1
    split at h
    · exact absurd h (by simp)
    · rename_i t h2
      split at h
      · rename_i h500
        obtain ⟨hs1, _⟩ := chAdd16_some h1
        obtain ⟨ht, _⟩ := chAdd16_some h2
        omega
      · exact absurd h (by simp)

/-- Claim C3: every fee configuration accepted by `init_config` (source
`initialize`), by `propose_fee_update` (and later applied by
`execute_fee_update`), or by the emergency `update_fees` satisfies
`reflection_share_bps + lp_share_bps + burn_share_bps = 500` as a
mathematical (unbounded) sum; triples whose true sum exceeds the u16
range abort the checked u16 addition and are never accepted. -/
theorem c3_fee_sum_500 (a m r l b s s2 g rv lv bv : Nat)
    (cfg0 cfg1 cfgE cfgU cfgV : KernelConfig) (pp pE : FeeProposal)
    (now now2 : Int) :
    (exOk (init_config a m r l b) = true → r + l + b = 500)
  ∧ (exOk (propose_fee_update cfg0 s r l b now) = true → r + l + b = 500)
  ∧ (propose_fee_update cfg0 s r l b now = .ok pp →
       pp.reflection_share_bps + pp.lp_share_bps + pp.burn_share_bps = 500)
  ∧ (execute_fee_update s2 cfg1 pp now2 = .ok (cfgE, pE) →
       cfgE.reflection_share_bps = pp.reflection_share_bps
       ∧ cfgE.lp_share_bps = pp.lp_share_bps
       ∧ cfgE.burn_share_bps = pp.burn_share_bps)
  ∧ (exOk (update_fees s g cfgU rv lv bv) = true → rv + lv + bv = 500)
  ∧ (update_fees s g cfgU rv lv bv = .ok cfgV →
       cfgV.reflection_share_bps = rv ∧ cfgV.lp_share_bps = lv
       ∧ cfgV.burn_share_bps = bv) := by
  refine ⟨?_, ?_, ?_, ?_, ?_, ?_⟩
  · intro h
    unfold init_config at h
    split at h
    · simp [exOk] at h
    · rename_i u heq
      exact checkFeeConfig_ok heq
  · intro h
    unfold propose_fee_update at h
    split at h
    · simp [exOk] at h
    · split at h
      · simp [exOk] at h
      · rename_i u heq
        exact checkFeeConfig_ok heq
  · intro h
    unfold propose_fee_update at h
    split at h
    · exact absurd h (by simp)
    · split at h
      · exact absurd h (by simp)
      · rename_i u heq
        rw [Except.ok.injEq] at h
        subst h
        exact checkFeeConfig_ok heq
  · intro h
    unfold execute_fee_update at h
    split at h
    · exact absurd h (by simp)
    · split at h
      · exact absurd h (by simp)
      · split at h
        · exact absurd h (by simp)
        · split at h
          · exact absurd h (by simp)
          · split at h
            · exact absurd h (by simp)
            · rw [Except.ok.injEq, Prod.mk.injEq] at h
              obtain ⟨hc, _⟩ := h
              subst hc
              exact ⟨rfl, rfl, rfl⟩
  · intro h
    unfold update_fees at h
    split at h
    · simp [exOk] at h
    · split at h
      · simp [exOk] at h
      · rename_i u heq
        exact checkFeeConfig_ok heq
  · intro h
    unfold update_fees at h
    split at h
    · exact absurd h (by simp)
    · split at h
      · exact absurd h (by simp)
      · rw [Except.ok.injEq] at h
        subst h
        exact ⟨rfl, rfl, rfl⟩

theorem c3_fee_sum_500_witness :
    exOk (init_config 1 2 200 200 100) = true
  ∧ (200 + 200 + 100 = 500)
  ∧ exOk (update_fees 1 3 ⟨1, 2, 200, 200, 100, 0, 0, 0, 0, false⟩ 300 150 50)
      = true
  ∧ (300 + 150 + 50 = 500) := by
  have A := c3_fee_sum_500 1 2 200 200 100 1 1 3 300 150 50
      ⟨1, 2, 200, 200, 100, 0, 0, 0, 0, false⟩
      ⟨1, 2, 200, 200, 100, 0, 0, 0, 0, false⟩
      ⟨1, 2, 200, 200, 100, 0, 0, 0, 0, false⟩
      ⟨1, 2, 200, 200, 100, 0, 0, 0, 0, false⟩
      ⟨1, 2, 200, 200, 100, 0, 0, 0, 0, false⟩
      ⟨1, 300, 150, 50, 0, false, false⟩ ⟨1, 300, 150, 50, 0, true, false⟩ 0 86400
  exact ⟨by decide, A.1 (by decide), by decide, A.2.2.2.2.1 (by decide)⟩

/-- Claim C4 counterexample: an emergency `update_fees` call in which
the guardian signer is the very same identity as the pool authority
(identity 7 signs as both) succeeds, contradicting the claim that such
a call must fail. -/
theorem c4_guardian_equal_authority_accepted :
    update_fees 7 7 ⟨7, 2, 200, 200, 100, 0, 0, 0, 0, false⟩ 300 150 50
      = .ok ⟨7, 2, 300, 150, 50, 0, 0, 0, 0, false⟩ := rfl

/-- Claim C4 (amended): the emergency `update_fees` requires the
authority signer to match `config.authority` and a guardian signature to
be present, but the guardian's identity is never consulted — the result
is identical for every guardian, including one equal to the authority;
no distinctness is enforced. -/
theorem c4_guardian_not_checked (s g g2 r l b : Nat) (cfg : KernelConfig) :
    update_fees s g cfg r l b = update_fees s g2 cfg r l b
  ∧ (exOk (update_fees s g cfg r l b) = true → cfg.authority = s) := by
  constructor
  · rfl
  · intro h
    unfold update_fees at h
    split at h
    · simp [exOk] at h
    · rename_i hA
      exact not_not.mp hA

theorem c4_guardian_not_checked_witness :
    exOk (update_fees 7 7 ⟨7, 2, 200, 200, 100, 0, 0, 0, 0, false⟩ 300 150 50)
      = true
  ∧ (⟨7, 2, 200, 200, 100, 0, 0, 0, 0, false⟩ : KernelConfig).authority = 7 :=
  ⟨by decide,
   (c4_guardian_not_checked 7 7 9 300 150 50
      ⟨7, 2, 200, 200, 100, 0, 0, 0, 0, false⟩).2 (by decide)⟩

theorem unstake_ignores_pause (cfg : KernelConfig) (us : UserStake) (p : Nat)
    (now : Int) (a : Nat) (t : Bool) (b : Bool) :
    exOk (unstake { cfg with is_paused := b } us p now a t)
      = exOk (unstake cfg us p now a t) := by
  unfold unstake
  simp only []
  by_cases h1 : us.owner ≠ p
  · rw [if_pos h1, if_pos h1]
  · rw [if_neg h1, if_neg h1]
    by_cases h2 : a = 0
    · rw [if_pos h2, if_pos h2]
    · rw [if_neg h2, if_neg h2]
      by_cases h3 : us.staked_amount < a
      · rw [if_pos h3, if_pos h3]
      · rw [if_neg h3, if_neg h3]
        cases hb : (if 0 < cfg.accumulated_per_share then
            (calculate_pending_rewards us.staked_amount
              cfg.accumulated_per_share us.reward_debt).bind
              (chAdd64 us.pending_rewards)
          else some us.pending_rewards) with
        | none => rfl
        | some pr =>
          by_cases h4 : t = false
          · simp [h4, exOk]
          · cases hsa : chSub64 us.staked_amount a with
            | none => simp [h4, exOk]
            | some sa =>
              cases hts : chSub64 cfg.total_staked a with
              | none => simp [h4, exOk]
              | some ts =>
                cases hrd : calculate_reward_debt sa
                    cfg.accumulated_per_share with
                | none => simp [h4, hrd, exOk]
                | some rd => simp [h4, hrd, exOk]

theorem claim_ignores_pause (cfg : KernelConfig) (us : UserStake) (p : Nat)
    (t : Bool) (b : Bool) :
    exOk (claim_reflections { cfg with is_paused := b } us p t)
      = exOk (claim_reflections cfg us p t) := by
  unfold claim_reflections
  simp only []
  by_cases h1 : us.owner ≠ p
  · rw [if_pos h1, if_pos h1]
  · rw [if_neg h1, if_neg h1]
    cases hpd : calculate_pending_rewards us.staked_amount
        cfg.accumulated_per_share us.reward_debt with
    | none => rfl
    | some pending =>
      cases htc : chAdd64 us.pending_rewards pending with
      | none => simp [htc, exOk]
      | some tc =>
        by_cases h2 : tc = 0
        · simp [htc, h2, exOk]
        · by_cases h3 : t = false
          · simp [htc, h2, h3, exOk]
          · cases ht1 : chAdd64 us.total_claimed tc with
            | none => simp [htc, h2, h3, ht1, exOk]
            | some tcl =>
              cases hrd : calculate_reward_debt us.staked_amount
                  cfg.accumulated_per_share with
              | none => simp [htc, h2, h3, ht1, hrd, exOk]
              | some rd =>
                cases ht2 : chAdd64 cfg.total_reflections_distributed tc with
                | none => simp [htc, h2, h3, ht1, hrd, ht2, exOk]
                | some trd => simp [htc, h2, h3, ht1, hrd, ht2, exOk]

theorem withdraw_ignores_pause (cfg : KernelConfig) (v : LPVault) (p : Nat)
    (a : Nat) (t : Bool) (b : Bool) :
    exOk (withdraw_from_lp_vault { cfg with is_paused := b } v p a t)
      = exOk (withdraw_from_lp_vault cfg v p a t) := by
  unfold withdraw_from_lp_vault
  simp only []

/-- Claim C7: when `is_paused` is true, stake fails for every amount,
while unstake, claim_reflections and withdraw_from_lp_vault never
consult the pause flag — their success status is identical for every
value of `is_paused`, so with otherwise-valid inputs they succeed while
the pool is paused. -/
theorem c7_pause_gates_only_stake (cfg : KernelConfig) (us : UserStake)
    (v : LPVault) (p : Nat) (now : Int) (a : Nat) (t b : Bool)
    (hp : cfg.is_paused = true) :
    exOk (stake cfg us p now a t) = false
  ∧ exOk (unstake { cfg with is_paused := b } us p now a t)
      = exOk (unstake cfg us p now a t)
  ∧ exOk (claim_reflections { cfg with is_paused := b } us p t)
      = exOk (claim_reflections cfg us p t)
  ∧ exOk (withdraw_from_lp_vault { cfg with is_paused := b } v p a t)
      = exOk (withdraw_from_lp_vault cfg v p a t) := by
  refine ⟨?_, unstake_ignores_pause cfg us p now a t b,
         claim_ignores_pause cfg us p t b,
         withdraw_ignores_pause cfg v p a t b⟩
  unfold stake
  by_cases h2 : a = 0
  · simp [h2, exOk]
  · simp [h2, hp, exOk]

theorem c7_pause_gates_only_stake_witness :
    exOk (stake ⟨1, 2, 200, 200, 100, 100, 0, 0, 0, true⟩
        ⟨1, 100, 0, 5, 0, 0⟩ 1 0 5 true) = false
  ∧ exOk (unstake ⟨1, 2, 200, 200, 100, 100, 0, 0, 0, true⟩
        ⟨1, 100, 0, 5, 0, 0⟩ 1 0 5 true) = true
  ∧ exOk (claim_reflections ⟨1, 2, 200, 200, 100, 100, 0, 0, 0, true⟩
        ⟨1, 100, 0, 5, 0, 0⟩ 1 true) = true
  ∧ exOk (withdraw_from_lp_vault ⟨1, 2, 200, 200, 100, 100, 0, 0, 0, true⟩
        ⟨1, 2, 10, 0, 10, 0⟩ 1 5 true) = true := by
  have A := c7_pause_gates_only_stake ⟨1, 2, 200, 200, 100, 100, 0, 0, 0, true⟩
      ⟨1, 100, 0, 5, 0, 0⟩ ⟨1, 2, 10, 0, 10, 0⟩ 1 0 5 true false rfl
  exact ⟨A.1, (A.2.1.symm).trans (by decide), (A.2.2.1.symm).trans (by decide),
         (A.2.2.2.symm).trans (by decide)⟩

/-- Claim C6 counterexample: with `S = 10^12`, `A = 2^65`, `D = 0` the
mathematical clamped delta is `2^65`, but `calculate_pending_rewards`
returns `some 0` because the source truncates the u128 difference with
`as u64`; so the claimed formula does not hold for every position. -/
theorem c6_truncation_counterexample :
    calculate_pending_rewards (10 ^ 12) (2 ^ 65) 0 = some 0
  ∧ 10 ^ 12 * 2 ^ 65 / PRECISION - 0 = 2 ^ 65
  ∧ (0 : Nat) ≠ 2 ^ 65 :=
  ⟨by decide, by decide, by decide⟩

/-- Claim C6 (amended): whenever the 128-bit product `S * A` does not
overflow and the clamped delta fits in a u64, the accumulator-derived
claimable delta equals `floor(S * A / 10^12) - D`, clamped to 0 if
negative (truncated `Nat` subtraction is exactly that clamp); deltas of
`2^64` or more are instead truncated modulo `2^64` (claim C10).  The
spec scenario also holds: with `total_staked = 1000` a deposit of 100
raises `accumulated_per_share` by exactly `10^11`, and a participant
with `S = 1000`, `D = 0` then has claimable delta 100. -/
theorem c6_reward_formula (S A D : Nat) (h1 : S * A < 2 ^ 128)
    (h2 : S * A / PRECISION - D < 2 ^ 64) :
    calculate_pending_rewards S A D = some (S * A / PRECISION - D)
  ∧ deposit_reflections ⟨1, 2, 200, 200, 100, 1000, 0, 0, 0, false⟩ 1 100 true
      = .ok ⟨1, 2, 200, 200, 100, 1000, 0, 100, 100000000000, false⟩
  ∧ calculate_pending_rewards 1000 100000000000 0 = some 100 := by
  refine ⟨?_, rfl, by decide⟩
  by_cases hS : S = 0
  · subst hS
    simp [calculate_pending_rewards]
  · unfold calculate_pending_rewards
    rw [if_neg hS]
    unfold chMul128
    rw [if_pos h1]
    exact congrArg some (Nat.mod_eq_of_lt h2)

theorem c6_reward_formula_witness :
    3 * (2 * 10 ^ 12) < 2 ^ 128
  ∧ 3 * (2 * 10 ^ 12) / PRECISION - 1 < 2 ^ 64
  ∧ calculate_pending_rewards 3 (2 * 10 ^ 12) 1
      = some (3 * (2 * 10 ^ 12) / PRECISION - 1) :=
  ⟨by decide, by decide,
   (c6_reward_formula 3 (2 * 10 ^ 12) 1 (by decide) (by decide)).1⟩

/-- Claim C9: `burn_tokens` performs no authority check — for every
signer, a call with positive amount whose underlying token burn succeeds
updates the burn record, and `burn_tokens` can never fail with
`NotAuthority` — unlike `deposit_reflections`, `airdrop`, and the LP
operations, which reject any caller other than `config.authority`. -/
theorem c9_burn_no_authority_check (signer : Nat) (cfg : KernelConfig)
    (rec : BurnRecord) (st : AirdropState) (v : LPVault) (now : Int)
    (amount lp pa per : Nat) (t : Bool) (recipients : List Nat)
    (h1 : 0 < amount) (h2 : rec.total_burned + amount < 2 ^ 64)
    (h3 : rec.burn_count + 1 < 2 ^ 64) (h4 : signer ≠ cfg.authority) :
    burn_tokens signer cfg rec now amount true
      = .ok ⟨rec.total_burned + amount, rec.burn_count + 1, now⟩
  ∧ burn_tokens signer cfg rec now amount t ≠ .error (.kernel .NotAuthority)
  ∧ deposit_reflections cfg signer amount t = .error (.kernel .NotAuthority)
  ∧ airdrop cfg st signer recipients per = .error (.kernel .NotAuthority)
  ∧ allocate_to_lp cfg v signer amount t = .error (.kernel .NotAuthority)
  ∧ record_lp_deployment cfg v signer amount lp pa now
      = .error (.kernel .NotAuthority)
  ∧ withdraw_from_lp_vault cfg v signer amount t
      = .error (.kernel .NotAuthority) := by
  have ha : ¬(amount = 0) := by omega
  refine ⟨?_, ?_, ?_, ?_, ?_, ?_, ?_⟩
  · unfold burn_tokens
    rw [if_neg ha, if_neg (by decide : ¬(true = false))]
    unfold chAdd64
    rw [if_pos h2, if_pos h3]
  · unfold burn_tokens
    repeat' split <;> try simp
  · unfold deposit_reflections
    rw [if_pos (Ne.symm h4)]
  · unfold airdrop
    rw [if_pos (Ne.symm h4)]
  · unfold allocate_to_lp
    rw [if_pos (Ne.symm h4)]
  · unfold record_lp_deployment
    rw [if_pos (Ne.symm h4)]
  · unfold withdraw_from_lp_vault
    rw [if_pos (Ne.symm h4)]

theorem c9_burn_no_authority_check_witness :
    burn_tokens 9 ⟨1, 2, 200, 200, 100, 0, 0, 0, 0, false⟩ ⟨0, 0, 0⟩ 7 5 true
      = .ok ⟨5, 1, 7⟩
  ∧ burn_tokens 9 ⟨1, 2, 200, 200, 100, 0, 0, 0, 0, false⟩ ⟨0, 0, 0⟩ 7 5 true
      ≠ .error (.kernel .NotAuthority)
  ∧ deposit_reflections ⟨1, 2, 200, 200, 100, 0, 0, 0, 0, false⟩ 9 5 true
      = .error (.kernel .NotAuthority)
  ∧ allocate_to_lp ⟨1, 2, 200, 200, 100, 0, 0, 0, 0, false⟩ ⟨1, 2, 0, 0, 0, 0⟩
      9 5 true = .error (.kernel .NotAuthority) := by
  have A := c9_burn_no_authority_check 9 ⟨1, 2, 200, 200, 100, 0, 0, 0, 0, false⟩
      ⟨0, 0, 0⟩ ⟨0, 0⟩ ⟨1, 2, 0, 0, 0, 0⟩ 7 5 3 4 6 true [11, 12]
      (by decide) (by decide) (by decide) (by decide)
  exact ⟨A.1, A.2.1, A.2.2.1, A.2.2.2.2.1⟩

/-- Claim C10: whenever `S > 0`, the u128 product does not overflow, and
the exact clamped delta `floor(S*A/10^12) - D` is at least `2^64`,
`calculate_pending_rewards` neither aborts nor returns the exact value:
it returns the delta reduced modulo `2^64` (the truncating `as u64`
cast), silently losing the high bits; this truncated value is the
pending-reward amount consumed by stake, unstake and claim_reflections. -/
theorem c10_truncating_cast (S A D : Nat) (h1 : 0 < S) (h2 : S * A < 2 ^ 128)
    (h3 : 2 ^ 64 ≤ S * A / PRECISION - D) :
    calculate_pending_rewards S A D = some ((S * A / PRECISION - D) % 2 ^ 64)
  ∧ (S * A / PRECISION - D) % 2 ^ 64 ≠ S * A / PRECISION - D := by
  constructor
  · unfold calculate_pending_rewards
    rw [if_neg (by omega)]
    unfold chMul128
    rw [if_pos h2]
  · have hm : (S * A / PRECISION - D) % 2 ^ 64 < 2 ^ 64 :=
      Nat.mod_lt _ (by decide)
    omega

theorem c10_truncating_cast_witness :
    0 < 10 ^ 12
  ∧ 10 ^ 12 * 2 ^ 64 < 2 ^ 128
  ∧ 2 ^ 64 ≤ 10 ^ 12 * 2 ^ 64 / PRECISION - 0
  ∧ calculate_pending_rewards (10 ^ 12) (2 ^ 64) 0
      = some ((10 ^ 12 * 2 ^ 64 / PRECISION - 0) % 2 ^ 64)
  ∧ (10 ^ 12 * 2 ^ 64 / PRECISION - 0) % 2 ^ 64
      ≠ 10 ^ 12 * 2 ^ 64 / PRECISION - 0 := by
  have A := c10_truncating_cast (10 ^ 12) (2 ^ 64) 0 (by decide) (by decide)
      (by decide)
  exact ⟨by decide, by decide, by decide, A.1, A.2⟩
